import Mathlib

/-!
Verification of the UVM channel submission engine (`nvidia-uvm/uvm_channel.c`).

The development shallowly embeds the channel data model and the operations of
the source file: the GPFIFO ring with its `cpu_put` / `gpu_get` indices, the
reservation counter `current_pushes_count`, the tracking-semaphore counters,
the push-info free-list, progress updates, error inspection, CE selection and
the module-parameter configuration.  Stateful C functions become pure Lean
functions from a channel state to an updated channel state (plus the values
handed to the HAL collaborators, which we record in result structures).

Machine-integer conventions: the 32-bit semaphore payload is modeled with an
explicit `% 2 ^ 32`; ring indices are `Nat` reduced `% num_gpfifo_entries`
exactly where the source reduces them; the 64-bit `queued_value` counter is
modeled as an unbounded `Nat` following the wraparound-free discipline of the
64-bit tracking counters.
-/

namespace UvmChannel

/-- One GPFIFO ring slot record (`uvm_gpfifo_entry_t`): the tracking-semaphore
value stamped at end-push, the pushbuffer region, and the index of the
push-info record attached to the entry (`entry->push_info` is a pointer into
`channel->push_infos`; we keep the stable array index). -/
structure GpfifoEntry where
  tracking_semaphore_value : Nat
  pushbuffer_offset : Nat
  pushbuffer_size : Nat
  push_info : Nat
  deriving Repr, DecidableEq

instance : Inhabited GpfifoEntry := ⟨⟨0, 0, 0, 0⟩⟩

/-- Host-visible state of one channel (`uvm_channel_t`), with the fields the
verified operations touch: the ring geometry and indices, the reservation
counter, the tracking semaphore pair (`tracking_sem.queued_value` and the
completed value the semaphore refresh returns), the GPFIFO entry array, the
push-info free-list (`available_push_infos`, kept as the list of push-info
indices in list order), and the RM error notifier word. -/
structure Channel where
  num_gpfifo_entries : Nat
  cpu_put : Nat
  gpu_get : Nat
  current_pushes_count : Nat
  queued_value : Nat
  completed_value : Nat
  gpfifo_entries : List GpfifoEntry
  available_push_infos : List Nat
  error_notifier_status : Nat
  deriving Repr, DecidableEq

/-- `channel_is_available` (uvm_channel.c:151): admission test under the pool
lock, using the one-slot-sentinel convention. -/
def channel_is_available (channel : Channel) : Bool :=
  let next_put := (channel.cpu_put + channel.current_pushes_count + 1) % channel.num_gpfifo_entries
  next_put != channel.gpu_get

/-- `try_claim_channel` (uvm_channel.c:162): claim a logical ring slot by
incrementing `current_pushes_count` when the channel is available.  Returns
the updated channel and the `claimed` flag. -/
def try_claim_channel (channel : Channel) : Channel × Bool :=
  if channel_is_available channel then
    ({ channel with current_pushes_count := channel.current_pushes_count + 1 }, true)
  else
    (channel, false)

/-- A fresh channel as produced by `channel_create` (uvm_channel.c:518): both
ring indices at zero, no reservations, zeroed GPFIFO entries, and all `N`
push-info records threaded onto the free-list in index order
(uvm_channel.c:596-597). -/
def freshChannel (N : Nat) : Channel :=
  { num_gpfifo_entries := N
    cpu_put := 0
    gpu_get := 0
    current_pushes_count := 0
    queued_value := 0
    completed_value := 0
    gpfifo_entries := List.replicate N default
    available_push_infos := List.range N
    error_notifier_status := 0 }

/-- Number of reservations granted by `n` consecutive `try_claim_channel`
attempts (each attempt acting on the state the previous one left). -/
def claimsGranted (channel : Channel) : Nat → Nat
  | 0 => 0
  | n + 1 =>
    let r := try_claim_channel channel
    (if r.2 then 1 else 0) + claimsGranted r.1 n

/-- An in-flight push descriptor (`uvm_push_t`), restricted to the fields
`uvm_channel_end_push` reads: the push-info index installed at begin-push
(`none` models the poisoned `-1`), and the pushbuffer offset and size the
external pushbuffer collaborator reports for the push. -/
structure Push where
  push_info_index : Option Nat
  pushbuffer_offset : Nat
  push_size : Nat
  channel_tracking_value : Nat
  deriving Repr, DecidableEq

/-- Everything `uvm_channel_end_push` produces: the updated channel, the
updated push descriptor, the 32-bit payload handed to
`ce_hal->semaphore_release`, and the GPPUT value handed to
`host_hal->write_gpu_put`. -/
structure EndPushResult where
  channel : Channel
  push : Push
  semaphore_payload : Nat
  gpu_put_written : Nat
  deriving Repr, DecidableEq

/-- `uvm_channel_end_push` (uvm_channel.c:289): increment the tracking
semaphore's queued value, release its low 32 bits as the semaphore payload,
fill the GPFIFO entry at `cpu_put` with the new tracking value and the push's
pushbuffer region, hand the entry's push-info index back from the push
descriptor (poisoning the descriptor's index), decrement
`current_pushes_count`, and publish `cpu_put = (cpu_put + 1) % N` to the GPU.
The HAL encoding calls and memory fences have no host-visible state beyond
the recorded payload and GPPUT value. -/
def uvm_channel_end_push (channel : Channel) (push : Push) : EndPushResult :=
  let new_tracking_value := channel.queued_value + 1
  let new_payload := new_tracking_value % 2 ^ 32
  let push_size := push.push_size
  let cpu_put := channel.cpu_put
  let new_cpu_put := (cpu_put + 1) % channel.num_gpfifo_entries
  let entry : GpfifoEntry :=
    { tracking_semaphore_value := new_tracking_value
      pushbuffer_offset := push.pushbuffer_offset
      pushbuffer_size := push_size
      push_info := push.push_info_index.getD 0 }
  { channel :=
      { channel with
          queued_value := new_tracking_value
          gpfifo_entries := channel.gpfifo_entries.set cpu_put entry
          current_pushes_count := channel.current_pushes_count - 1
          cpu_put := new_cpu_put }
    push := { push with push_info_index := none, channel_tracking_value := new_tracking_value }
    semaphore_payload := new_payload
    gpu_put_written := new_cpu_put }

/-! ### Lemmas about claim admission -/

lemma channel_is_available_iff (ch : Channel) :
    channel_is_available ch = true ↔
      (ch.cpu_put + ch.current_pushes_count + 1) % ch.num_gpfifo_entries ≠ ch.gpu_get := by
  simp [channel_is_available]

lemma try_claim_channel_snd (ch : Channel) :
    (try_claim_channel ch).2 = channel_is_available ch := by
  unfold try_claim_channel
  by_cases h : channel_is_available ch <;> simp [h]

lemma try_claim_channel_fst (ch : Channel) :
    (try_claim_channel ch).1 =
      if channel_is_available ch
      then { ch with current_pushes_count := ch.current_pushes_count + 1 }
      else ch := by
  unfold try_claim_channel
  by_cases h : channel_is_available ch <;> simp [h]

lemma claimsGranted_succ (ch : Channel) (n : Nat) :
    claimsGranted ch (n + 1) =
      (if (try_claim_channel ch).2 then 1 else 0) + claimsGranted (try_claim_channel ch).1 n := rfl

/-- On a channel with both indices at zero, `n` consecutive claims grant
exactly `min n (N - 1 - current_pushes_count)` reservations. -/
lemma claimsGranted_zero_indices :
    ∀ (n : Nat) (ch : Channel), ch.cpu_put = 0 → ch.gpu_get = 0 →
      ch.current_pushes_count < ch.num_gpfifo_entries →
      claimsGranted ch n = min n (ch.num_gpfifo_entries - 1 - ch.current_pushes_count) := by
  intro n
  induction n with
  | zero => intro ch _ _ _; simp [claimsGranted]
  | succ n ih =>
    intro ch hput hget hcnt
    by_cases hfull : ch.current_pushes_count + 1 = ch.num_gpfifo_entries
    · have h0 : (ch.cpu_put + ch.current_pushes_count + 1) % ch.num_gpfifo_entries =
          ch.gpu_get := by
        rw [hput, hget,
          show 0 + ch.current_pushes_count + 1 = ch.num_gpfifo_entries from by omega,
          Nat.mod_self]
      have hav : channel_is_available ch = false := by
        simp [channel_is_available, h0]
      rw [claimsGranted_succ, try_claim_channel_snd, try_claim_channel_fst, hav]
      simp only [Bool.false_eq_true, if_false]
      rw [ih ch hput hget hcnt]
      omega
    · have h0 : (ch.cpu_put + ch.current_pushes_count + 1) % ch.num_gpfifo_entries ≠
          ch.gpu_get := by
        rw [hput, hget, Nat.zero_add, Nat.mod_eq_of_lt (by omega)]
        omega
      have hav : channel_is_available ch = true := by
        simpa [channel_is_available] using h0
      rw [claimsGranted_succ, try_claim_channel_snd, try_claim_channel_fst, hav]
      simp only [if_true]
      rw [ih _ (by simpa using hput) (by simpa using hget) (by simpa using (by omega : ch.current_pushes_count + 1 < ch.num_gpfifo_entries))]
      simp only [Channel.mk.injEq]
      omega

/-- C1: admission to the ring is granted iff
`(cpu_put + current_pushes_count + 1) % N ≠ gpu_get`, a granted claim
increments `current_pushes_count` by one, and on a fresh `N`-slot channel with
no completions exactly `N - 1` consecutive reservations are granted with the
`N`-th denied (1023 of 1024 for the default `N = 1024`). -/
theorem try_claim_channel_admission :
    (∀ ch : Channel,
        ((try_claim_channel ch).2 = true ↔
          (ch.cpu_put + ch.current_pushes_count + 1) % ch.num_gpfifo_entries ≠ ch.gpu_get)
      ∧ ((try_claim_channel ch).2 = true →
          (try_claim_channel ch).1.current_pushes_count = ch.current_pushes_count + 1))
    ∧ (∀ N : Nat, 1 ≤ N →
        claimsGranted (freshChannel N) (N - 1) = N - 1
        ∧ claimsGranted (freshChannel N) N = N - 1)
    ∧ claimsGranted (freshChannel 1024) 1023 = 1023
    ∧ claimsGranted (freshChannel 1024) 1024 = 1023 := by
  have hfresh : ∀ N : Nat, 1 ≤ N →
      claimsGranted (freshChannel N) (N - 1) = N - 1
      ∧ claimsGranted (freshChannel N) N = N - 1 := by
    intro N hN
    have h1 := claimsGranted_zero_indices (N - 1) (freshChannel N) rfl rfl (by simpa [freshChannel] using hN)
    have h2 := claimsGranted_zero_indices N (freshChannel N) rfl rfl (by simpa [freshChannel] using hN)
    simp only [freshChannel] at h1 h2 ⊢
    constructor
    · rw [h1]; omega
    · rw [h2]; omega
  refine ⟨fun ch => ⟨?_, ?_⟩, hfresh, ?_, ?_⟩
  · rw [try_claim_channel_snd]
    exact channel_is_available_iff ch
  · intro h
    rw [try_claim_channel_snd] at h
    simp [try_claim_channel_fst, h]
  · simpa using (hfresh 1024 (by norm_num)).1
  · simpa using (hfresh 1024 (by norm_num)).2

/-- Closed instance of `try_claim_channel_admission`: its hypotheses
discharged at `N = 4`. -/
theorem try_claim_channel_admission_witness :
    claimsGranted (freshChannel 4) 3 = 3 ∧ claimsGranted (freshChannel 4) 4 = 3 := by
  have h := try_claim_channel_admission.2.1 4 (by norm_num)
  simpa using h

/-! ### End push -/

lemma list_getD_set_self {α : Type} [Inhabited α] :
    ∀ (l : List α) (i : Nat) (a : α), i < l.length → (l.set i a).getD i default = a := by
  intro l
  induction l with
  | nil => intro i a h; simp at h
  | cons x xs ih =>
    intro i a h
    cases i with
    | zero => simp [List.set]
    | succ j =>
      simp only [List.set, List.getD, List.getElem?_cons_succ]
      have := ih j a (by simpa using h)
      simpa [List.getD] using this

/-- C2: for a channel with queued value `q`, put index `p` and a positive
reservation count `c`, `uvm_channel_end_push` sets `queued` to `q + 1`,
releases the 32-bit payload `(q + 1) % 2 ^ 32`, stamps tracking value `q + 1`
into the GPFIFO slot at index `p`, decrements `current_pushes_count` to
`c - 1`, and publishes `cpu_put = (p + 1) % N` (the same value written to
GPPUT). -/
theorem uvm_channel_end_push_effects (ch : Channel) (p : Push)
    (hc : 0 < ch.current_pushes_count)
    (hp : ch.cpu_put < ch.gpfifo_entries.length) :
    (uvm_channel_end_push ch p).channel.queued_value = ch.queued_value + 1
    ∧ (uvm_channel_end_push ch p).semaphore_payload = (ch.queued_value + 1) % 2 ^ 32
    ∧ ((uvm_channel_end_push ch p).channel.gpfifo_entries.getD ch.cpu_put
        default).tracking_semaphore_value = ch.queued_value + 1
    ∧ (uvm_channel_end_push ch p).channel.current_pushes_count = ch.current_pushes_count - 1
    ∧ (uvm_channel_end_push ch p).channel.cpu_put = (ch.cpu_put + 1) % ch.num_gpfifo_entries
    ∧ (uvm_channel_end_push ch p).gpu_put_written = (ch.cpu_put + 1) % ch.num_gpfifo_entries := by
  refine ⟨rfl, rfl, ?_, rfl, rfl, rfl⟩
  unfold uvm_channel_end_push
  simp only []
  rw [list_getD_set_self _ _ _ hp]

/-- Closed instance of `uvm_channel_end_push_effects`: its hypotheses
discharged on a 4-slot channel holding one reservation. -/
theorem uvm_channel_end_push_effects_witness :
    ((uvm_channel_end_push
        { freshChannel 4 with current_pushes_count := 1 }
        { push_info_index := some 0, pushbuffer_offset := 0, push_size := 0,
          channel_tracking_value := 0 }).channel.queued_value = 0 + 1)
    ∧ ((uvm_channel_end_push
        { freshChannel 4 with current_pushes_count := 1 }
        { push_info_index := some 0, pushbuffer_offset := 0, push_size := 0,
          channel_tracking_value := 0 }).channel.cpu_put = (0 + 1) % 4) := by
  have h := uvm_channel_end_push_effects
    { freshChannel 4 with current_pushes_count := 1 }
    { push_info_index := some 0, pushbuffer_offset := 0, push_size := 0,
      channel_tracking_value := 0 }
    (by decide) (by decide)
  exact ⟨h.1, h.2.2.2.2.1⟩

/-! ### Update progress -/

/-- `uvm_channel_update_mode_t` (uvm_channel.c:65): `completed` removes only
completed GPFIFO entries, `force_all` removes all remaining entries. -/
inductive UpdateMode
  | completed
  | force_all
  deriving Repr, DecidableEq

/-- The loop-invariant data of `uvm_channel_update_progress_with_max`: the
entry array, ring size, the `cpu_put` snapshot, the completed value returned
by `uvm_channel_update_completed_value`, and the update mode.  None of these
change while the loop walks `gpu_get`. -/
structure LoopCtx where
  gpfifo_entries : List GpfifoEntry
  num_gpfifo_entries : Nat
  cpu_put : Nat
  completed_value : Nat
  mode : UpdateMode
  deriving Repr, DecidableEq

/-- The `while` loop of `uvm_channel_update_progress_with_max`
(uvm_channel.c:92-102): starting from `gpu_get` with free-list `avail`, walk
toward `cpu_put` for at most `fuel = max_to_complete` entries, stopping early
in `completed` mode at the first entry whose tracking value exceeds the
completed value; each reclaimed entry appends its push-info index to the
free-list tail and advances `gpu_get` modulo the ring size. -/
def updateProgressLoop (c : LoopCtx) : Nat → Nat → List Nat → Nat × List Nat
  | 0, gpu_get, avail => (gpu_get, avail)
  | fuel + 1, gpu_get, avail =>
    if gpu_get = c.cpu_put then (gpu_get, avail)
    else
      let entry := c.gpfifo_entries.getD gpu_get default
      if c.mode = UpdateMode.completed ∧ entry.tracking_semaphore_value > c.completed_value then
        (gpu_get, avail)
      else
        updateProgressLoop c fuel ((gpu_get + 1) % c.num_gpfifo_entries)
          (avail ++ [entry.push_info])

/-- The loop context captured from a channel at entry to
`uvm_channel_update_progress_with_max`. -/
def channelLoopCtx (channel : Channel) (mode : UpdateMode) : LoopCtx :=
  { gpfifo_entries := channel.gpfifo_entries
    num_gpfifo_entries := channel.num_gpfifo_entries
    cpu_put := channel.cpu_put
    completed_value := channel.completed_value
    mode := mode }

/-- `uvm_channel_update_progress_with_max` (uvm_channel.c:76): refresh the
completed value, walk up to `max_to_complete` entries from `gpu_get`,
store the new `gpu_get`, and return the count of still-pending GPFIFO
entries. -/
def uvm_channel_update_progress_with_max (channel : Channel) (max_to_complete : Nat)
    (mode : UpdateMode) : Channel × Nat :=
  let cpu_put := channel.cpu_put
  let r := updateProgressLoop (channelLoopCtx channel mode) max_to_complete channel.gpu_get
    channel.available_push_infos
  let gpu_get := r.1
  let pending_gpfifos :=
    if cpu_put ≥ gpu_get then cpu_put - gpu_get
    else channel.num_gpfifo_entries - gpu_get + cpu_put
  ({ channel with gpu_get := gpu_get, available_push_infos := r.2 }, pending_gpfifos)

/-- `uvm_channel_update_progress` (uvm_channel.c:116): the default bounded
update, completing at most 8 entries. -/
def uvm_channel_update_progress (channel : Channel) : Channel × Nat :=
  uvm_channel_update_progress_with_max channel 8 UpdateMode.completed

/-- `channel_update_progress_all` (uvm_channel.c:126): the unbounded variant,
passing the full ring size as the entry bound. -/
def channel_update_progress_all (channel : Channel) (mode : UpdateMode) : Channel × Nat :=
  uvm_channel_update_progress_with_max channel channel.num_gpfifo_entries mode

/-- Stopping condition of the update-progress walk at ring position
`gpu_get`: the ring is drained or, in `completed` mode, the next entry is not
yet complete. -/
def loopStuck (c : LoopCtx) (gpu_get : Nat) : Prop :=
  gpu_get = c.cpu_put ∨
    (c.mode = UpdateMode.completed ∧
      (c.gpfifo_entries.getD gpu_get default).tracking_semaphore_value > c.completed_value)

/-- Ring distance from `gpu_get` forward to `cpu_put`: the number of pending
slots the walk still has to visit. -/
def ringDist (N cpu_put gpu_get : Nat) : Nat := (cpu_put + N - gpu_get) % N

lemma updateProgressLoop_succ (c : LoopCtx) (f gpu_get : Nat) (avail : List Nat) :
    updateProgressLoop c (f + 1) gpu_get avail =
      if gpu_get = c.cpu_put then (gpu_get, avail)
      else if c.mode = UpdateMode.completed ∧
          (c.gpfifo_entries.getD gpu_get default).tracking_semaphore_value > c.completed_value then
        (gpu_get, avail)
      else
        updateProgressLoop c f ((gpu_get + 1) % c.num_gpfifo_entries)
          (avail ++ [(c.gpfifo_entries.getD gpu_get default).push_info]) := rfl

lemma updateProgressLoop_of_stuck (c : LoopCtx) (f gpu_get : Nat) (avail : List Nat)
    (h : loopStuck c gpu_get) : updateProgressLoop c f gpu_get avail = (gpu_get, avail) := by
  cases f with
  | zero => rfl
  | succ f =>
    rw [updateProgressLoop_succ]
    rcases h with h | h
    · rw [if_pos h]
    · by_cases hg : gpu_get = c.cpu_put
      · rw [if_pos hg]
      · rw [if_neg hg, if_pos h]

lemma updateProgressLoop_add (c : LoopCtx) :
    ∀ (a b gpu_get : Nat) (avail : List Nat),
      updateProgressLoop c (a + b) gpu_get avail =
        updateProgressLoop c b (updateProgressLoop c a gpu_get avail).1
          (updateProgressLoop c a gpu_get avail).2 := by
  intro a
  induction a with
  | zero => intro b g av; rw [Nat.zero_add]; rfl
  | succ a ih =>
    intro b g av
    rw [Nat.succ_add]
    by_cases hg : g = c.cpu_put
    · rw [updateProgressLoop_of_stuck c (a + 1) g av (Or.inl hg),
        updateProgressLoop_of_stuck c (a + b + 1) g av (Or.inl hg)]
      exact (updateProgressLoop_of_stuck c b g av (Or.inl hg)).symm
    · by_cases hbrk : c.mode = UpdateMode.completed ∧
          (c.gpfifo_entries.getD g default).tracking_semaphore_value > c.completed_value
      · rw [updateProgressLoop_of_stuck c (a + 1) g av (Or.inr hbrk),
          updateProgressLoop_of_stuck c (a + b + 1) g av (Or.inr hbrk)]
        exact (updateProgressLoop_of_stuck c b g av (Or.inr hbrk)).symm
      · have hstep : ∀ f, updateProgressLoop c (f + 1) g av =
            updateProgressLoop c f ((g + 1) % c.num_gpfifo_entries)
              (av ++ [(c.gpfifo_entries.getD g default).push_info]) := by
          intro f
          rw [updateProgressLoop_succ, if_neg hg, if_neg hbrk]
        rw [hstep (a + b), hstep a, ih]

lemma updateProgressLoop_avail_length (c : LoopCtx) :
    ∀ (f gpu_get : Nat) (avail : List Nat),
      avail.length ≤ (updateProgressLoop c f gpu_get avail).2.length := by
  intro f
  induction f with
  | zero => intro g av; exact Nat.le_refl _
  | succ f ih =>
    intro g av
    rw [updateProgressLoop_succ]
    by_cases hg : g = c.cpu_put
    · rw [if_pos hg]
    · rw [if_neg hg]
      by_cases hbrk : c.mode = UpdateMode.completed ∧
          (c.gpfifo_entries.getD g default).tracking_semaphore_value > c.completed_value
      · rw [if_pos hbrk]
      · rw [if_neg hbrk]
        calc av.length ≤ (av ++ [(c.gpfifo_entries.getD g default).push_info]).length := by
              simp
          _ ≤ _ := ih _ _

lemma loopStuck_of_fix (c : LoopCtx) (k gpu_get : Nat) (avail : List Nat) (hk : 1 ≤ k)
    (h : updateProgressLoop c k gpu_get avail = (gpu_get, avail)) : loopStuck c gpu_get := by
  cases k with
  | zero => omega
  | succ k =>
    by_contra hstuck
    unfold loopStuck at hstuck
    push_neg at hstuck
    have hg : gpu_get ≠ c.cpu_put := hstuck.1
    have hbrk : ¬(c.mode = UpdateMode.completed ∧
        (c.gpfifo_entries.getD gpu_get default).tracking_semaphore_value > c.completed_value) := by
      intro hcon
      exact absurd hcon.2 (by simpa using hstuck.2 hcon.1)
    rw [updateProgressLoop_succ, if_neg hg, if_neg hbrk] at h
    have hlen := updateProgressLoop_avail_length c k
      ((gpu_get + 1) % c.num_gpfifo_entries)
      (avail ++ [(c.gpfifo_entries.getD gpu_get default).push_info])
    rw [h] at hlen
    simp at hlen

lemma ringDist_eq_zero (N cpu g : Nat) (hN : 0 < N) (hcpu : cpu < N) (hg : g < N)
    (h : ringDist N cpu g = 0) : g = cpu := by
  unfold ringDist at h
  have hdvd := Nat.dvd_of_mod_eq_zero h
  obtain ⟨k, hk⟩ := hdvd
  have h1 : 1 ≤ cpu + N - g := by omega
  have h2 : cpu + N - g < 2 * N := by omega
  match k, hk with
  | 0, hk => omega
  | 1, hk => omega
  | (k + 2), hk =>
    have hexp : N * (k + 2) = N * k + 2 * N := by ring
    omega

lemma ringDist_get_step (N cpu g : Nat) (hN : 0 < N) (hcpu : cpu < N) (hg : g < N)
    (hne : g ≠ cpu) : ringDist N cpu ((g + 1) % N) = ringDist N cpu g - 1 := by
  unfold ringDist
  by_cases h1 : g + 1 < N
  · rw [Nat.mod_eq_of_lt h1]
    by_cases h2 : g < cpu
    · rw [show cpu + N - g = N + (cpu - g) from by omega,
        show cpu + N - (g + 1) = N + (cpu - (g + 1)) from by omega,
        Nat.add_mod_left, Nat.add_mod_left,
        Nat.mod_eq_of_lt (by omega), Nat.mod_eq_of_lt (by omega)]
      omega
    · have h3 : cpu < g := by omega
      rw [Nat.mod_eq_of_lt (by omega), Nat.mod_eq_of_lt (by omega)]
      omega
  · have hgN : g + 1 = N := by omega
    have hclt : cpu + 1 < N := by omega
    rw [hgN, Nat.mod_self, Nat.sub_zero,
      show cpu + N - g = cpu + 1 from by omega,
      Nat.add_mod_right, Nat.mod_eq_of_lt hcpu, Nat.mod_eq_of_lt hclt]
    omega

lemma updateProgressLoop_stuck_result (c : LoopCtx) (hN : 0 < c.num_gpfifo_entries)
    (hcpu : c.cpu_put < c.num_gpfifo_entries) :
    ∀ (f gpu_get : Nat) (avail : List Nat), gpu_get < c.num_gpfifo_entries →
      ringDist c.num_gpfifo_entries c.cpu_put gpu_get ≤ f →
      loopStuck c (updateProgressLoop c f gpu_get avail).1 := by
  intro f
  induction f with
  | zero =>
    intro g av hg hd
    have hg0 : g = c.cpu_put :=
      ringDist_eq_zero _ _ _ hN hcpu hg (Nat.le_zero.mp hd)
    exact Or.inl hg0
  | succ f ih =>
    intro g av hg hd
    by_cases hgp : g = c.cpu_put
    · rw [updateProgressLoop_of_stuck c _ g av (Or.inl hgp)]
      exact Or.inl hgp
    · by_cases hbrk : c.mode = UpdateMode.completed ∧
          (c.gpfifo_entries.getD g default).tracking_semaphore_value > c.completed_value
      · rw [updateProgressLoop_of_stuck c _ g av (Or.inr hbrk)]
        exact Or.inr hbrk
      · have hstep : updateProgressLoop c (f + 1) g av =
            updateProgressLoop c f ((g + 1) % c.num_gpfifo_entries)
              (av ++ [(c.gpfifo_entries.getD g default).push_info]) := by
          rw [updateProgressLoop_succ, if_neg hgp, if_neg hbrk]
        rw [hstep]
        refine ih _ _ (Nat.mod_lt _ hN) ?_
        rw [ringDist_get_step _ _ _ hN hcpu hg hgp]
        have hd1 : 1 ≤ ringDist c.num_gpfifo_entries c.cpu_put g := by
          rcases Nat.eq_zero_or_pos (ringDist c.num_gpfifo_entries c.cpu_put g) with h0 | h0
          · exact absurd (ringDist_eq_zero _ _ _ hN hcpu hg h0) hgp
          · exact h0
        omega

/-- `m` repetitions of the bounded update
`uvm_channel_update_progress_with_max · k completed`, each acting on the
channel state the previous call left. -/
def boundedUpdateIter (ch : Channel) (k : Nat) : Nat → Channel
  | 0 => ch
  | m + 1 => (uvm_channel_update_progress_with_max (boundedUpdateIter ch k m) k
      UpdateMode.completed).1

lemma update_progress_with_max_fst (ch : Channel) (k : Nat) (mode : UpdateMode) :
    (uvm_channel_update_progress_with_max ch k mode).1 =
      { ch with
          gpu_get := (updateProgressLoop (channelLoopCtx ch mode) k ch.gpu_get
            ch.available_push_infos).1
          available_push_infos := (updateProgressLoop (channelLoopCtx ch mode) k ch.gpu_get
            ch.available_push_infos).2 } := rfl

lemma channelLoopCtx_set_get_avail (ch : Channel) (mode : UpdateMode) (g : Nat)
    (av : List Nat) :
    channelLoopCtx { ch with gpu_get := g, available_push_infos := av } mode =
      channelLoopCtx ch mode := rfl

lemma boundedUpdateIter_eq_loop (ch : Channel) (k : Nat) :
    ∀ m : Nat,
      boundedUpdateIter ch k m =
        { ch with
            gpu_get := (updateProgressLoop (channelLoopCtx ch UpdateMode.completed) (m * k)
              ch.gpu_get ch.available_push_infos).1
            available_push_infos :=
              (updateProgressLoop (channelLoopCtx ch UpdateMode.completed) (m * k)
                ch.gpu_get ch.available_push_infos).2 } := by
  intro m
  induction m with
  | zero =>
    show ch = _
    rw [Nat.zero_mul]
    cases ch
    rfl
  | succ m ih =>
    show (uvm_channel_update_progress_with_max (boundedUpdateIter ch k m) k
        UpdateMode.completed).1 = _
    rw [update_progress_with_max_fst, ih]
    have hctx : channelLoopCtx
        { ch with
            gpu_get := (updateProgressLoop (channelLoopCtx ch UpdateMode.completed) (m * k)
              ch.gpu_get ch.available_push_infos).1
            available_push_infos :=
              (updateProgressLoop (channelLoopCtx ch UpdateMode.completed) (m * k)
                ch.gpu_get ch.available_push_infos).2 } UpdateMode.completed =
          channelLoopCtx ch UpdateMode.completed := rfl
    rw [hctx]
    have hadd := updateProgressLoop_add (channelLoopCtx ch UpdateMode.completed) (m * k) k
      ch.gpu_get ch.available_push_infos
    rw [show (m + 1) * k = m * k + k from by ring, hadd]

/-- C4: for every channel state whose ring indices are in range and every
bound `k ≥ 1`, repeatedly applying
`uvm_channel_update_progress_with_max · k completed` until an application
reclaims nothing yields exactly the channel state of a single call with an
unbounded `max_to_complete` (any bound `B ≥ num_gpfifo_entries`, in
particular the full ring size that `channel_update_progress_all` passes). -/
theorem update_progress_bounded_iter_eq_unbounded (ch : Channel) (k m B : Nat)
    (hk : 1 ≤ k)
    (hget : ch.gpu_get < ch.num_gpfifo_entries)
    (hput : ch.cpu_put < ch.num_gpfifo_entries)
    (hB : ch.num_gpfifo_entries ≤ B)
    (hfix : (uvm_channel_update_progress_with_max (boundedUpdateIter ch k m) k
      UpdateMode.completed).1 = boundedUpdateIter ch k m) :
    boundedUpdateIter ch k m =
      (uvm_channel_update_progress_with_max ch B UpdateMode.completed).1 := by
  set c := channelLoopCtx ch UpdateMode.completed with hc
  have hN : 0 < c.num_gpfifo_entries := by
    show 0 < ch.num_gpfifo_entries
    omega
  have hcpu : c.cpu_put < c.num_gpfifo_entries := hput
  have hgetc : ch.gpu_get < c.num_gpfifo_entries := hget
  -- name the loop result after m rounds of k
  have hiter := boundedUpdateIter_eq_loop ch k m
  set r := updateProgressLoop c (m * k) ch.gpu_get ch.available_push_infos with hr
  -- the fixpoint hypothesis says the loop makes no progress from r
  have hfix' : updateProgressLoop c k r.1 r.2 = (r.1, r.2) := by
    have h1 : (uvm_channel_update_progress_with_max (boundedUpdateIter ch k m) k
        UpdateMode.completed).1 =
        { ch with
            gpu_get := (updateProgressLoop c k r.1 r.2).1
            available_push_infos := (updateProgressLoop c k r.1 r.2).2 } := by
      rw [hiter, update_progress_with_max_fst]
      rfl
    rw [h1, hiter] at hfix
    have hg := congrArg Channel.gpu_get hfix
    have ha := congrArg Channel.available_push_infos hfix
    simp only [] at hg ha
    exact Prod.ext hg ha
  have hstuck : loopStuck c r.1 := loopStuck_of_fix c k r.1 r.2 hk hfix'
  -- one unbounded call computes the same loop result
  have hgoal : updateProgressLoop c B ch.gpu_get ch.available_push_infos = (r.1, r.2) := by
    rcases Nat.le_total (m * k) B with hle | hle
    · rw [show B = m * k + (B - m * k) from by omega,
        updateProgressLoop_add, ← hr, updateProgressLoop_of_stuck c _ r.1 r.2 hstuck]
    · have hstuckB : loopStuck c
          (updateProgressLoop c B ch.gpu_get ch.available_push_infos).1 := by
        refine updateProgressLoop_stuck_result c hN hcpu B ch.gpu_get
          ch.available_push_infos hgetc ?_
        have hmod := Nat.mod_lt (c.cpu_put + c.num_gpfifo_entries - ch.gpu_get) hN
        have hc1 : c.num_gpfifo_entries = ch.num_gpfifo_entries := rfl
        unfold ringDist
        omega
      rw [hr, show m * k = B + (m * k - B) from by omega, updateProgressLoop_add,
        updateProgressLoop_of_stuck c _ _ _ hstuckB]
  rw [hiter, update_progress_with_max_fst, ← hc, hgoal]

/-- Closed instance of `update_progress_bounded_iter_eq_unbounded`: its
hypotheses discharged on a 2-slot channel with one completed pending entry,
`k = 1`, `m = 1`, `B = 2`. -/
theorem update_progress_bounded_iter_eq_unbounded_witness :
    boundedUpdateIter
        { num_gpfifo_entries := 2, cpu_put := 1, gpu_get := 0,
          current_pushes_count := 0, queued_value := 1, completed_value := 1,
          gpfifo_entries := [⟨1, 0, 0, 0⟩, ⟨0, 0, 0, 0⟩],
          available_push_infos := [1], error_notifier_status := 0 } 1 1 =
      (uvm_channel_update_progress_with_max
        { num_gpfifo_entries := 2, cpu_put := 1, gpu_get := 0,
          current_pushes_count := 0, queued_value := 1, completed_value := 1,
          gpfifo_entries := [⟨1, 0, 0, 0⟩, ⟨0, 0, 0, 0⟩],
          available_push_infos := [1], error_notifier_status := 0 } 2
        UpdateMode.completed).1 := by
  exact update_progress_bounded_iter_eq_unbounded _ 1 1 2 (by decide) (by decide) (by decide)
    (by decide) (by decide)

/-! ### Begin push and the push-info free-list -/

/-- `channel_get_available_push_info_index` (uvm_channel.c:252): under the
pool lock, detach the head of the push-info free-list and return its index.
`none` models the execution in which `list_first_entry_or_null` returns NULL
and the `UVM_ASSERT(push_info != NULL)` fires. -/
def channel_get_available_push_info_index (channel : Channel) :
    Option (Channel × Nat) :=
  match channel.available_push_infos with
  | [] => none
  | push_info :: rest => some ({ channel with available_push_infos := rest }, push_info)

/-- Host-side transitions of one channel under the pool lock, paired with the
number of pushes that have passed begin-push but not yet end-push (`begun`).
Each constructor is one source operation: a successful claim
(`try_claim_channel`), the free-list pop inside `uvm_channel_begin_push`
(only invoked while holding a claimed-but-unbegun reservation, hence the
`begun < current_pushes_count` guard), `uvm_channel_end_push` on a begun
push, and `uvm_channel_update_progress_with_max` with any bound and mode. -/
inductive ChannelStep : Channel × Nat → Channel × Nat → Prop
  | claim (ch ch' : Channel) (begun : Nat)
      (h : try_claim_channel ch = (ch', true)) :
      ChannelStep (ch, begun) (ch', begun)
  | begin_push (ch ch' : Channel) (begun i : Nat)
      (hres : begun < ch.current_pushes_count)
      (h : channel_get_available_push_info_index ch = some (ch', i)) :
      ChannelStep (ch, begun) (ch', begun + 1)
  | end_push (ch : Channel) (begun : Nat) (p : Push) (hb : 0 < begun) :
      ChannelStep (ch, begun) ((uvm_channel_end_push ch p).channel, begun - 1)
  | update_progress (ch : Channel) (begun max_to_complete : Nat) (mode : UpdateMode) :
      ChannelStep (ch, begun)
        ((uvm_channel_update_progress_with_max ch max_to_complete mode).1, begun)

/-- Inductive invariant of `ChannelStep` for a channel created with `N`
GPFIFO entries: ring indices stay in range, `begun` never exceeds the
reservation count, the free-list length plus begun pushes plus pending ring
slots account for all `N` push-info records, and reservations plus pending
slots respect the one-slot sentinel. -/
def ChannelInv (N : Nat) (ch : Channel) (begun : Nat) : Prop :=
  ch.num_gpfifo_entries = N ∧
  0 < N ∧
  ch.cpu_put < N ∧
  ch.gpu_get < N ∧
  begun ≤ ch.current_pushes_count ∧
  ch.available_push_infos.length + begun + ringDist N ch.cpu_put ch.gpu_get = N ∧
  ch.current_pushes_count + ringDist N ch.cpu_put ch.gpu_get ≤ N - 1

lemma ringDist_lt (N cpu g : Nat) (hN : 0 < N) : ringDist N cpu g < N := by
  unfold ringDist
  exact Nat.mod_lt _ hN

lemma ringDist_pos (N cpu g : Nat) (hN : 0 < N) (hcpu : cpu < N) (hg : g < N)
    (hne : g ≠ cpu) : 1 ≤ ringDist N cpu g := by
  rcases Nat.eq_zero_or_pos (ringDist N cpu g) with h0 | h0
  · exact absurd (ringDist_eq_zero N cpu g hN hcpu hg h0) hne
  · exact h0

lemma mod_cancel_ringDist (N cpu g : Nat) (hN : 0 < N) (hcpu : cpu < N) (hg : g < N) :
    (cpu + N - ringDist N cpu g) % N = g := by
  unfold ringDist
  by_cases h : g ≤ cpu
  · have h1 : (cpu + N - g) % N = cpu - g := by
      rw [show cpu + N - g = N + (cpu - g) from by omega, Nat.add_mod_left,
        Nat.mod_eq_of_lt (by omega)]
    rw [h1, show cpu + N - (cpu - g) = N + g from by omega, Nat.add_mod_left,
      Nat.mod_eq_of_lt hg]
  · have h1 : (cpu + N - g) % N = cpu + N - g := Nat.mod_eq_of_lt (by omega)
    rw [h1, show cpu + N - (cpu + N - g) = g from by omega, Nat.mod_eq_of_lt hg]

lemma ringDist_put_step (N cpu g : Nat) (hN : 0 < N) (hcpu : cpu < N) (hg : g < N)
    (hd : ringDist N cpu g + 2 ≤ N) :
    ringDist N ((cpu + 1) % N) g = ringDist N cpu g + 1 := by
  unfold ringDist at hd ⊢
  by_cases h1 : cpu + 1 < N
  · rw [Nat.mod_eq_of_lt h1]
    by_cases h2 : g ≤ cpu
    · have ha : (cpu + N - g) % N = cpu - g := by
        rw [show cpu + N - g = N + (cpu - g) from by omega, Nat.add_mod_left,
          Nat.mod_eq_of_lt (by omega)]
      have hb : (cpu + 1 + N - g) % N = cpu + 1 - g := by
        rw [show cpu + 1 + N - g = N + (cpu + 1 - g) from by omega, Nat.add_mod_left,
          Nat.mod_eq_of_lt (by omega)]
      rw [ha, hb]
      omega

    · have h3 : cpu < g := by omega
      have ha : (cpu + N - g) % N = cpu + N - g := Nat.mod_eq_of_lt (by omega)
      rw [ha] at hd
      have hb : (cpu + 1 + N - g) % N = cpu + 1 + N - g := Nat.mod_eq_of_lt (by omega)
      rw [ha, hb]
      omega
  · have hcN : cpu + 1 = N := by omega
    have ha : (cpu + N - g) % N = N - 1 - g := by
      rw [show cpu + N - g = N + (N - 1 - g) from by omega, Nat.add_mod_left,
        Nat.mod_eq_of_lt (by omega)]
    rw [ha] at hd
    rw [hcN, Nat.mod_self, ha]
    have hg1 : 1 ≤ g := by omega
    rw [show 0 + N - g = N - g from by omega, Nat.mod_eq_of_lt (by omega)]
    omega

lemma updateProgressLoop_length_dist (c : LoopCtx) (hN : 0 < c.num_gpfifo_entries)
    (hcpu : c.cpu_put < c.num_gpfifo_entries) :
    ∀ (f gpu_get : Nat) (avail : List Nat), gpu_get < c.num_gpfifo_entries →
      (updateProgressLoop c f gpu_get avail).1 < c.num_gpfifo_entries ∧
      (updateProgressLoop c f gpu_get avail).2.length +
        ringDist c.num_gpfifo_entries c.cpu_put (updateProgressLoop c f gpu_get avail).1 =
        avail.length + ringDist c.num_gpfifo_entries c.cpu_put gpu_get := by
  intro f
  induction f with
  | zero => intro g av hg; exact ⟨hg, rfl⟩
  | succ f ih =>
    intro g av hg
    by_cases hgp : g = c.cpu_put
    · rw [updateProgressLoop_of_stuck c _ g av (Or.inl hgp)]
      exact ⟨hg, rfl⟩
    · by_cases hbrk : c.mode = UpdateMode.completed ∧
          (c.gpfifo_entries.getD g default).tracking_semaphore_value > c.completed_value
      · rw [updateProgressLoop_of_stuck c _ g av (Or.inr hbrk)]
        exact ⟨hg, rfl⟩
      · have hstep : updateProgressLoop c (f + 1) g av =
            updateProgressLoop c f ((g + 1) % c.num_gpfifo_entries)
              (av ++ [(c.gpfifo_entries.getD g default).push_info]) := by
          rw [updateProgressLoop_succ, if_neg hgp, if_neg hbrk]
        rw [hstep]
        obtain ⟨ih1, ih2⟩ := ih ((g + 1) % c.num_gpfifo_entries)
          (av ++ [(c.gpfifo_entries.getD g default).push_info]) (Nat.mod_lt _ hN)
        refine ⟨ih1, ?_⟩
        rw [ih2, ringDist_get_step _ _ _ hN hcpu hg hgp]
        have hd1 := ringDist_pos c.num_gpfifo_entries c.cpu_put g hN hcpu hg hgp
        simp only [List.length_append, List.length_cons, List.length_nil]
        omega

lemma ChannelInv_init (N : Nat) (hN : 0 < N) : ChannelInv N (freshChannel N) 0 := by
  unfold ChannelInv freshChannel ringDist
  refine ⟨rfl, hN, hN, hN, Nat.le_refl _, ?_, ?_⟩
  · simp [Nat.add_sub_cancel, Nat.mod_self]
  · simp [Nat.add_sub_cancel, Nat.mod_self]

lemma ChannelInv_step {N : Nat} {s s' : Channel × Nat}
    (hstep : ChannelStep s s') (hinv : ChannelInv N s.1 s.2) : ChannelInv N s'.1 s'.2 := by
  cases hstep with
  | claim ch ch' begun h =>
    have hinv' : ChannelInv N ch begun := hinv
    show ChannelInv N ch' begun
    obtain ⟨hn, hN, hcpu, hget, hbc, hsum, hcap⟩ := hinv'
    have hsnd : (try_claim_channel ch).2 = true := by rw [h]
    have hav : channel_is_available ch = true := by
      rw [← try_claim_channel_snd]; exact hsnd
    have hfst : ch' = { ch with current_pushes_count := ch.current_pushes_count + 1 } := by
      have hf := try_claim_channel_fst ch
      rw [h] at hf
      simpa [hav] using hf
    subst hfst
    refine ⟨hn, hN, hcpu, hget, by simpa using Nat.le_succ_of_le hbc, by simpa using hsum, ?_⟩
    have hne := (channel_is_available_iff ch).mp hav
    rw [hn] at hne
    rcases Nat.lt_or_ge (ch.current_pushes_count + ringDist N ch.cpu_put ch.gpu_get)
      (N - 1) with hlt | hge
    · show ch.current_pushes_count + 1 + ringDist N ch.cpu_put ch.gpu_get ≤ N - 1
      omega
    · exfalso
      have hdlt := ringDist_lt N ch.cpu_put ch.gpu_get hN
      have heq : ch.cpu_put + ch.current_pushes_count + 1 =
          ch.cpu_put + N - ringDist N ch.cpu_put ch.gpu_get := by omega
      exact hne (by rw [heq]; exact mod_cancel_ringDist N _ _ hN hcpu hget)
  | begin_push ch ch' begun i hres h =>
    have hinv' : ChannelInv N ch begun := hinv
    show ChannelInv N ch' (begun + 1)
    obtain ⟨hn, hN, hcpu, hget, hbc, hsum, hcap⟩ := hinv'
    cases havail : ch.available_push_infos with
    | nil =>
      rw [channel_get_available_push_info_index, havail] at h
      exact absurd h (by simp)
    | cons i0 rest =>
      rw [channel_get_available_push_info_index, havail] at h
      have hpair := Option.some.inj h
      have hch' : ch' = { ch with available_push_infos := rest } := (Prod.mk.injEq _ _ _ _ ▸ hpair).1.symm
      subst hch'
      have hlen : ch.available_push_infos.length = rest.length + 1 := by
        rw [havail]; rfl
      refine ⟨hn, hN, hcpu, hget, by simpa using hres, ?_, by simpa using hcap⟩
      show rest.length + (begun + 1) + ringDist N ch.cpu_put ch.gpu_get = N
      omega
  | end_push ch begun p hb =>
    have hinv' : ChannelInv N ch begun := hinv
    show ChannelInv N (uvm_channel_end_push ch p).channel (begun - 1)
    obtain ⟨hn, hN, hcpu, hget, hbc, hsum, hcap⟩ := hinv'
    have hd2 : ringDist N ch.cpu_put ch.gpu_get + 2 ≤ N := by omega
    have hdist := ringDist_put_step N ch.cpu_put ch.gpu_get hN hcpu hget hd2
    refine ⟨hn, hN, ?_, hget, ?_, ?_, ?_⟩
    · show (ch.cpu_put + 1) % ch.num_gpfifo_entries < N
      rw [hn]
      exact Nat.mod_lt _ hN
    · show begun - 1 ≤ ch.current_pushes_count - 1
      omega
    · show ch.available_push_infos.length + (begun - 1) +
        ringDist N ((ch.cpu_put + 1) % ch.num_gpfifo_entries) ch.gpu_get = N
      rw [hn, hdist]
      omega
    · show ch.current_pushes_count - 1 +
        ringDist N ((ch.cpu_put + 1) % ch.num_gpfifo_entries) ch.gpu_get ≤ N - 1
      rw [hn, hdist]
      omega
  | update_progress ch begun max_to_complete mode =>
    have hinv' : ChannelInv N ch begun := hinv
    show ChannelInv N (uvm_channel_update_progress_with_max ch max_to_complete mode).1 begun
    obtain ⟨hn, hN, hcpu, hget, hbc, hsum, hcap⟩ := hinv'
    rw [update_progress_with_max_fst]
    set c := channelLoopCtx ch mode with hc
    have hcn : c.num_gpfifo_entries = N := hn
    have hccpu : c.cpu_put < c.num_gpfifo_entries := by rw [hcn]; exact hcpu
    have hcget : ch.gpu_get < c.num_gpfifo_entries := by rw [hcn]; exact hget
    have hN' : 0 < c.num_gpfifo_entries := by rw [hcn]; exact hN
    obtain ⟨h1, h2⟩ := updateProgressLoop_length_dist c hN' hccpu max_to_complete
      ch.gpu_get ch.available_push_infos hcget
    rw [hcn] at h1
    rw [hcn, show c.cpu_put = ch.cpu_put from rfl] at h2
    have hmono := updateProgressLoop_avail_length c max_to_complete ch.gpu_get
      ch.available_push_infos
    refine ⟨hn, hN, hcpu, h1, hbc, ?_, ?_⟩
    · show (updateProgressLoop c max_to_complete ch.gpu_get ch.available_push_infos).2.length
        + begun + ringDist N ch.cpu_put
          (updateProgressLoop c max_to_complete ch.gpu_get ch.available_push_infos).1 = N
      omega
    · show ch.current_pushes_count + ringDist N ch.cpu_put
          (updateProgressLoop c max_to_complete ch.gpu_get ch.available_push_infos).1 ≤ N - 1
      omega

/-- C9: from any state reachable from a freshly created channel (whose
push-info record count equals the ring capacity `N`) by claims, begin-pushes,
end-pushes and progress updates, if a claimed reservation has not yet begun
(`begun < current_pushes_count`, i.e. a ring slot was successfully reserved
for this begin-push), the push-info free-list is non-empty, so
`channel_get_available_push_info_index` returns an index and the
`UVM_ASSERT(push_info != NULL)` in it cannot fire. -/
theorem begin_push_pop_never_empty (N : Nat) (hN : 0 < N) (s : Channel × Nat)
    (hreach : Relation.ReflTransGen ChannelStep (freshChannel N, 0) s)
    (hres : s.2 < s.1.current_pushes_count) :
    s.1.available_push_infos ≠ [] ∧
      ∃ ch' i, channel_get_available_push_info_index s.1 = some (ch', i) := by
  have hinv0 : ∀ t : Channel × Nat,
      Relation.ReflTransGen ChannelStep (freshChannel N, 0) t → ChannelInv N t.1 t.2 := by
    intro t ht
    induction ht with
    | refl => exact ChannelInv_init N hN
    | tail hab hbc ih => exact ChannelInv_step hbc ih
  have hinv : ChannelInv N s.1 s.2 := hinv0 s hreach
  obtain ⟨hn, hN', hcpu, hget, hbc', hsum, hcap⟩ := hinv
  have hlen : 1 ≤ s.1.available_push_infos.length := by omega
  cases havail : s.1.available_push_infos with
  | nil => rw [havail] at hlen; simp at hlen
  | cons i0 rest =>
    refine ⟨by simp, { s.1 with available_push_infos := rest }, i0, ?_⟩
    rw [channel_get_available_push_info_index, havail]

/-- Closed instance of `begin_push_pop_never_empty`: its hypotheses
discharged on a 2-slot channel after one granted claim. -/
theorem begin_push_pop_never_empty_witness :
    ({ freshChannel 2 with current_pushes_count := 1 } : Channel).available_push_infos ≠ []
    ∧ ∃ ch' i, channel_get_available_push_info_index
        { freshChannel 2 with current_pushes_count := 1 } = some (ch', i) := by
  have hclaim : try_claim_channel (freshChannel 2) =
      ({ freshChannel 2 with current_pushes_count := 1 }, true) := by decide
  exact begin_push_pop_never_empty 2 (by decide)
    ({ freshChannel 2 with current_pushes_count := 1 }, 0)
    (Relation.ReflTransGen.tail Relation.ReflTransGen.refl
      (ChannelStep.claim _ _ _ hclaim))
    (by decide)

/-! ### Channel types and CE usability -/

/-- `uvm_channel_type_t`: the five logical channel types. -/
inductive ChannelType
  | cpu_to_gpu
  | gpu_to_cpu
  | gpu_internal
  | memops
  | gpu_to_gpu
  deriving Repr, DecidableEq

/-- All `UVM_CHANNEL_TYPE_COUNT = 5` channel types, in enum order. -/
def allChannelTypes : List ChannelType :=
  [ChannelType.cpu_to_gpu, ChannelType.gpu_to_cpu, ChannelType.gpu_internal,
   ChannelType.memops, ChannelType.gpu_to_gpu]

/-- One row of `UvmGpuCopyEnginesCaps` (`UvmGpuCopyEngineCaps`): the flags
`ce_usable_for_channel_type` tests as booleans, and the graded fields
`compare_ce_for_channel_type` subtracts as small unsigned integers. -/
structure UvmGpuCopyEngineCaps where
  supported : Bool
  grce : Bool
  sysmem : Bool
  p2p : Bool
  sysmemRead : Nat
  sysmemWrite : Nat
  nvlinkP2p : Nat
  shared : Nat
  cePceMask : Nat
  deriving Repr, DecidableEq

instance : Inhabited UvmGpuCopyEngineCaps := ⟨⟨false, false, false, false, 0, 0, 0, 0, 0⟩⟩

/-- `ce_usable_for_channel_type` (uvm_channel.c:715): a CE is usable for a
channel type when it is supported and not a GRCE, plus the per-type
requirement (`sysmem` for the CPU↔GPU types, `p2p` for GPU_TO_GPU,
unconditional for GPU_INTERNAL and MEMOPS). -/
def ce_usable_for_channel_type (type : ChannelType) (cap : UvmGpuCopyEngineCaps) : Bool :=
  if !cap.supported || cap.grce then false
  else
    match type with
    | ChannelType.cpu_to_gpu => cap.sysmem
    | ChannelType.gpu_to_cpu => cap.sysmem
    | ChannelType.gpu_internal => true
    | ChannelType.memops => true
    | ChannelType.gpu_to_gpu => cap.p2p

/-- C5: for every channel type and capability record, the CE is usable iff
`supported` is set and `grce` clear, with `sysmem` additionally required for
CPU_TO_GPU and GPU_TO_CPU, `p2p` for GPU_TO_GPU, and nothing more for
GPU_INTERNAL and MEMOPS. -/
theorem ce_usable_for_channel_type_iff (type : ChannelType) (cap : UvmGpuCopyEngineCaps) :
    ce_usable_for_channel_type type cap = true ↔
      (cap.supported = true ∧ cap.grce = false
        ∧ ((type = ChannelType.cpu_to_gpu ∨ type = ChannelType.gpu_to_cpu) →
            cap.sysmem = true)
        ∧ (type = ChannelType.gpu_to_gpu → cap.p2p = true)) := by
  cases type <;>
    simp [ce_usable_for_channel_type] <;>
    cases hs : cap.supported <;>
    cases hg : cap.grce <;>
    simp

/-! ### Configuration: num_gpfifo_entries clamping -/

def UVM_CHANNEL_NUM_GPFIFO_ENTRIES_DEFAULT : Nat := 1024

def UVM_CHANNEL_NUM_GPFIFO_ENTRIES_MIN : Nat := 32

def UVM_CHANNEL_NUM_GPFIFO_ENTRIES_MAX : Nat := 1024 * 1024

/-- The kernel's `is_power_of_2`: `n != 0 && (n & (n - 1)) == 0`. -/
def is_power_of_2 (n : Nat) : Bool :=
  n != 0 && (n &&& (n - 1)) == 0

lemma land_odd_pred (m : Nat) : (2 * m + 1) &&& (2 * m) = 2 * m := by
  have h := Nat.land_bit true m false m
  simp [Nat.bit_val] at h
  simpa using h

lemma land_even_pred (m : Nat) (hm : 0 < m) :
    (2 * m) &&& (2 * m - 1) = 2 * (m &&& (m - 1)) := by
  have h := Nat.land_bit false m true (m - 1)
  simp [Nat.bit_val] at h
  rw [show 2 * (m - 1) + 1 = 2 * m - 1 from by omega] at h
  exact h

lemma pow2_of_land_pred :
    ∀ n : Nat, 0 < n → n &&& (n - 1) = 0 → ∃ k, n = 2 ^ k := by
  intro n
  induction n using Nat.strong_induction_on with
  | _ n ih =>
    intro hpos hland
    rcases Nat.even_or_odd n with he | ho
    · obtain ⟨m, hm⟩ := he
      have hm2 : n = 2 * m := by omega
      have hmpos : 0 < m := by omega
      rw [hm2, land_even_pred m hmpos] at hland
      obtain ⟨k, hk⟩ := ih m (by omega) hmpos (by omega)
      exact ⟨k + 1, by rw [hm2, hk, Nat.pow_succ]; ring⟩
    · obtain ⟨m, hm⟩ := ho
      rw [hm, show 2 * m + 1 - 1 = 2 * m from by omega, land_odd_pred] at hland
      exact ⟨0, by omega⟩

lemma land_pred_of_pow2 : ∀ k : Nat, (2 ^ k) &&& (2 ^ k - 1) = 0 := by
  intro k
  induction k with
  | zero => simp
  | succ k ih =>
    have hpos : 0 < 2 ^ k := Nat.pos_pow_of_pos k (by omega)
    rw [Nat.pow_succ, Nat.mul_comm, land_even_pred (2 ^ k) hpos, ih]

lemma is_power_of_2_iff (n : Nat) : is_power_of_2 n = true ↔ ∃ k, n = 2 ^ k := by
  unfold is_power_of_2
  simp only [Bool.and_eq_true, bne_iff_ne, ne_eq, beq_iff_eq]
  constructor
  · intro ⟨hne, hland⟩
    exact pow2_of_land_pred n (Nat.pos_of_ne_zero hne) hland
  · intro ⟨k, hk⟩
    subst hk
    exact ⟨(Nat.pos_pow_of_pos k (by omega)).ne', land_pred_of_pow2 k⟩

/-- The `num_gpfifo_entries` computation of `init_channel_manager_conf`
(uvm_channel.c:980-989): clamp the module parameter below by 32 and above by
`2^20`, then replace any non-power-of-two by the default 1024. -/
def init_channel_manager_conf_num_gpfifo_entries
    (uvm_channel_num_gpfifo_entries : Nat) : Nat :=
  let num_gpfifo_entries :=
    if uvm_channel_num_gpfifo_entries < UVM_CHANNEL_NUM_GPFIFO_ENTRIES_MIN then
      UVM_CHANNEL_NUM_GPFIFO_ENTRIES_MIN
    else if uvm_channel_num_gpfifo_entries > UVM_CHANNEL_NUM_GPFIFO_ENTRIES_MAX then
      UVM_CHANNEL_NUM_GPFIFO_ENTRIES_MAX
    else
      uvm_channel_num_gpfifo_entries
  if !is_power_of_2 num_gpfifo_entries then UVM_CHANNEL_NUM_GPFIFO_ENTRIES_DEFAULT
  else num_gpfifo_entries

open Classical in
/-- C7: the effective `num_gpfifo_entries` is the configured value clamped
into `[32, 2^20]`, with any clamped value that is not a power of two replaced
by the default 1024; in particular 20 yields 32 and 1500 yields 1024. -/
theorem num_gpfifo_entries_clamping :
    (∀ v : Nat,
        init_channel_manager_conf_num_gpfifo_entries v =
          (if ∃ k, max 32 (min v (2 ^ 20)) = 2 ^ k then max 32 (min v (2 ^ 20)) else 1024))
    ∧ init_channel_manager_conf_num_gpfifo_entries 20 = 32
    ∧ init_channel_manager_conf_num_gpfifo_entries 1500 = 1024 := by
  have hmain : ∀ v : Nat,
      init_channel_manager_conf_num_gpfifo_entries v =
        (if ∃ k, max 32 (min v (2 ^ 20)) = 2 ^ k then max 32 (min v (2 ^ 20)) else 1024) := by
    intro v
    have hcode : init_channel_manager_conf_num_gpfifo_entries v =
        (if !is_power_of_2 (max 32 (min v (2 ^ 20))) then 1024
         else max 32 (min v (2 ^ 20))) := by
      unfold init_channel_manager_conf_num_gpfifo_entries
      unfold UVM_CHANNEL_NUM_GPFIFO_ENTRIES_MIN UVM_CHANNEL_NUM_GPFIFO_ENTRIES_MAX
        UVM_CHANNEL_NUM_GPFIFO_ENTRIES_DEFAULT
      have hclamp : (if v < 32 then (32 : Nat)
          else if v > 1024 * 1024 then 1024 * 1024 else v) =
          max 32 (min v (2 ^ 20)) := by
        have h20 : (2 ^ 20 : Nat) = 1024 * 1024 := by norm_num
        rw [h20]
        split
        · omega
        · split <;> omega
      rw [hclamp]
    rw [hcode]
    by_cases hp : ∃ k, max 32 (min v (2 ^ 20)) = 2 ^ k
    · rw [if_pos hp, (is_power_of_2_iff _).mpr hp]
      simp
    · rw [if_neg hp]
      have hfalse : is_power_of_2 (max 32 (min v (2 ^ 20))) = false := by
        rcases Bool.eq_false_or_eq_true (is_power_of_2 (max 32 (min v (2 ^ 20)))) with h | h
        · exact absurd ((is_power_of_2_iff _).mp h) hp
        · exact h
      rw [hfalse]
      simp
  refine ⟨hmain, ?_, ?_⟩
  · rw [hmain 20]
    rw [if_pos ⟨5, by norm_num⟩]
    norm_num
  · rw [hmain 1500]
    rw [if_neg ?_]
    intro ⟨k, hk⟩
    have h1 : max 32 (min 1500 (2 ^ 20)) = 1500 := by norm_num
    rw [h1] at hk
    rcases Nat.lt_or_ge k 11 with hlt | hge
    · interval_cases k <;> omega
    · have : 2 ^ 11 ≤ 2 ^ k := Nat.pow_le_pow_right (by omega) hge
      omega

/-! ### Pool sizing -/

/-- `channel_pool_num_channels` (uvm_channel.c:650): a proxy pool holds a
single channel (the vGPU plugin supports one proxy channel); every other pool
holds two. -/
def channel_pool_num_channels (is_proxy : Bool) : Nat :=
  if is_proxy then 1 else 2

/-- A channel pool (`uvm_channel_pool_t`): the CE it serves, the proxy flag,
and its channels. -/
structure ChannelPool where
  ce_index : Nat
  is_proxy : Bool
  channels : List Channel
  deriving Repr, DecidableEq

/-- The successful path of `channel_pool_create` (uvm_channel.c:670): create
`channel_pool_num_channels` channels, each via `channel_create` on a manager
configured with `N` GPFIFO entries. -/
def channel_pool_create (N ce_index : Nat) (is_proxy : Bool) : ChannelPool :=
  { ce_index := ce_index
    is_proxy := is_proxy
    channels := (List.range (channel_pool_num_channels is_proxy)).map
      (fun _ => freshChannel N) }

/-- C10: every non-proxy pool is created with exactly two channels and a
proxy pool with exactly one. -/
theorem channel_pool_create_num_channels :
    ∀ N ce_index : Nat,
      (channel_pool_create N ce_index false).channels.length = 2
      ∧ (channel_pool_create N ce_index true).channels.length = 1
      ∧ (∀ is_proxy : Bool,
          (channel_pool_create N ce_index is_proxy).channels.length =
            channel_pool_num_channels is_proxy) := by
  intro N ce_index
  refine ⟨?_, ?_, ?_⟩
  · simp [channel_pool_create, channel_pool_num_channels]
  · simp [channel_pool_create, channel_pool_num_channels]
  · intro is_proxy
    simp [channel_pool_create]

/-! ### CE selection -/

/-- `hweight32`: population count of a 32-bit word. -/
def hweight32 (n : Nat) : Nat :=
  (List.range 32).countP (fun i => n / 2 ^ i % 2 = 1)

/-- `bitmap_weight(mask, nbits)`: number of set bits below `nbits`. -/
def bitmap_weight (mask nbits : Nat) : Nat :=
  (List.range nbits).countP (fun i => mask / 2 ^ i % 2 = 1)

/-- `ce_usage_count` (uvm_channel.c:735): how many channel types currently
have `ce` as their preferred CE. -/
def ce_usage_count (ce : Nat) (preferred_ce : ChannelType → Nat) : Nat :=
  (allChannelTypes.countP (fun i => ce == preferred_ce i))

/-- `compare_ce_for_channel_type` (uvm_channel.c:751): negative iff the first
CE is better than the second for the given type.  Per-type primary criteria
(sysmem read/write speed for the CPU↔GPU types, PCE count for the GPU-local
types, nvlink-P2P avoidance) fall through to the default ordering: lower
usage count, then non-shared, then lower index. -/
def compare_ce_for_channel_type (ce_caps : List UvmGpuCopyEngineCaps) (type : ChannelType)
    (ce_index0 ce_index1 : Nat) (preferred_ce : ChannelType → Nat) : Int :=
  let cap0 := ce_caps.getD ce_index0 default
  let cap1 := ce_caps.getD ce_index1 default
  let default_order : Int :=
    let ce0_usage := ce_usage_count ce_index0 preferred_ce
    let ce1_usage := ce_usage_count ce_index1 preferred_ce
    if ce0_usage ≠ ce1_usage then (ce0_usage : Int) - (ce1_usage : Int)
    else if cap0.shared ≠ cap1.shared then (cap0.shared : Int) - (cap1.shared : Int)
    else (ce_index0 : Int) - (ce_index1 : Int)
  match type with
  | ChannelType.cpu_to_gpu =>
    if cap0.sysmemRead ≠ cap1.sysmemRead then (cap1.sysmemRead : Int) - (cap0.sysmemRead : Int)
    else if cap0.nvlinkP2p ≠ cap1.nvlinkP2p then (cap0.nvlinkP2p : Int) - (cap1.nvlinkP2p : Int)
    else default_order
  | ChannelType.gpu_to_cpu =>
    if cap0.sysmemWrite ≠ cap1.sysmemWrite then
      (cap1.sysmemWrite : Int) - (cap0.sysmemWrite : Int)
    else if cap0.nvlinkP2p ≠ cap1.nvlinkP2p then (cap0.nvlinkP2p : Int) - (cap1.nvlinkP2p : Int)
    else default_order
  | ChannelType.gpu_to_gpu =>
    let pce_diff : Int := (hweight32 cap1.cePceMask : Int) - (hweight32 cap0.cePceMask : Int)
    if pce_diff ≠ 0 then pce_diff else default_order
  | ChannelType.gpu_internal =>
    let pce_diff : Int := (hweight32 cap1.cePceMask : Int) - (hweight32 cap0.cePceMask : Int)
    if pce_diff ≠ 0 then pce_diff
    else if cap0.nvlinkP2p ≠ cap1.nvlinkP2p then (cap0.nvlinkP2p : Int) - (cap1.nvlinkP2p : Int)
    else default_order
  | ChannelType.memops => default_order

/-- `pick_ce_for_channel_type` (uvm_channel.c:846): scan the capability table
in index order, record every usable CE in the manager's CE bitmask, and keep
the best usable CE under `compare_ce_for_channel_type`.  Returns the chosen
CE (`none` models the `NV_ERR_NOT_SUPPORTED` exit) and the updated bitmask.
The source iterates to `UVM_COPY_ENGINE_COUNT_MAX` (a constant from a header
outside this repository) with unsupported rows past the table's end never
usable, so iterating over the table's indices is the same scan. -/
def pick_ce_for_channel_type (ce_caps : List UvmGpuCopyEngineCaps) (type : ChannelType)
    (preferred_ce : ChannelType → Nat) (ce_mask : Nat) : Option Nat × Nat :=
  (List.range ce_caps.length).foldl
    (fun (acc : Option Nat × Nat) i =>
      if !ce_usable_for_channel_type type (ce_caps.getD i default) then acc
      else
        let mask := acc.2 ||| 2 ^ i
        match acc.1 with
        | none => (some i, mask)
        | some best_ce =>
          if compare_ce_for_channel_type ce_caps type i best_ce preferred_ce < 0 then
            (some i, mask)
          else (some best_ce, mask))
    (none, ce_mask)

/-- Pointwise update of the `preferred_ce` table
(`preferred_ce[type] = best_ce`). -/
def setPreferred (preferred_ce : ChannelType → Nat) (type : ChannelType) (ce : Nat) :
    ChannelType → Nat :=
  fun i => if i = type then ce else preferred_ce i

/-- The selection order of `channel_manager_pick_copy_engines`
(uvm_channel.c:887-891): CPU_TO_GPU, GPU_TO_CPU, GPU_INTERNAL, GPU_TO_GPU,
MEMOPS — each pick bumps the chosen CE's usage count for later picks. -/
def channel_selection_order : List ChannelType :=
  [ChannelType.cpu_to_gpu, ChannelType.gpu_to_cpu, ChannelType.gpu_internal,
   ChannelType.gpu_to_gpu, ChannelType.memops]

/-- `channel_manager_pick_copy_engines` (uvm_channel.c:882) together with the
`preferred_ce` initialization of `channel_manager_create_pools`
(uvm_channel.c:1093-1094): every entry starts at the sentinel
`UVM_COPY_ENGINE_COUNT_MAX` (the table length here), then each channel type
in order gets its pick; a type with no usable CE aborts with `none`
(`NV_ERR_NOT_SUPPORTED`).  Returns the preferred-CE table and the usable-CE
bitmask. -/
def channel_manager_pick_copy_engines (ce_caps : List UvmGpuCopyEngineCaps) :
    Option ((ChannelType → Nat) × Nat) :=
  channel_selection_order.foldlM
    (fun (acc : (ChannelType → Nat) × Nat) type =>
      match pick_ce_for_channel_type ce_caps type acc.1 acc.2 with
      | (none, _) => none
      | (some best_ce, ce_mask) => some (setPreferred acc.1 type best_ce, ce_mask))
    (fun _ => ce_caps.length, 0)

/-- Pool count of `channel_manager_create_pools` (uvm_channel.c:1100-1103):
one pool per usable CE (the bitmask's weight), plus one proxy pool under
SR-IOV heavy. -/
def channel_manager_num_pools (ce_mask nbits : Nat) (uses_proxy_pool : Bool) : Nat :=
  bitmap_weight ce_mask nbits + (if uses_proxy_pool then 1 else 0)

/-- The capability table of the CE-selection scenario: CE0 sysmem only, CE1
sysmem + p2p + nvlinkP2p with 8 PCEs, CE2 p2p with 16 PCEs. -/
def ce_caps_scenario : List UvmGpuCopyEngineCaps :=
  [ { supported := true, grce := false, sysmem := true, p2p := false,
      sysmemRead := 0, sysmemWrite := 0, nvlinkP2p := 0, shared := 0, cePceMask := 0 },
    { supported := true, grce := false, sysmem := true, p2p := true,
      sysmemRead := 0, sysmemWrite := 0, nvlinkP2p := 1, shared := 0, cePceMask := 0xFF },
    { supported := true, grce := false, sysmem := false, p2p := true,
      sysmemRead := 0, sysmemWrite := 0, nvlinkP2p := 0, shared := 0, cePceMask := 0xFFFF } ]

/-- C3: on the scenario capability table, CE selection in the order
CPU_TO_GPU, GPU_TO_CPU, GPU_INTERNAL, GPU_TO_GPU, MEMOPS assigns CEs
0, 0, 2, 2, 1 respectively, and the number of pools created (no proxy pool)
equals the number of usable CEs, namely 3. -/
theorem channel_manager_pick_copy_engines_scenario :
    ∃ preferred_ce ce_mask,
      channel_manager_pick_copy_engines ce_caps_scenario = some (preferred_ce, ce_mask)
      ∧ preferred_ce ChannelType.cpu_to_gpu = 0
      ∧ preferred_ce ChannelType.gpu_to_cpu = 0
      ∧ preferred_ce ChannelType.gpu_internal = 2
      ∧ preferred_ce ChannelType.gpu_to_gpu = 2
      ∧ preferred_ce ChannelType.memops = 1
      ∧ channel_manager_num_pools ce_mask ce_caps_scenario.length false = 3 := by
  refine ⟨_, _, rfl, ?_, ?_, ?_, ?_, ?_, ?_⟩ <;> decide

/-! ### Error inspection -/

/-- The NV_STATUS values the verified error paths return. -/
inductive NVStatus
  | ok
  | ecc_error
  | rc_error
  deriving Repr, DecidableEq

/-- The GPU's ECC state as `uvm_channel_get_status` reads it:
`gpu->ecc.enabled` and the ECC error notifier word `*gpu->ecc.error_notifier`
at the moment of inspection. -/
structure GpuEccState where
  enabled : Bool
  error_notifier : Bool
  deriving Repr, DecidableEq

/-- `uvm_channel_get_status` (uvm_channel.c:401): NV_OK while the channel's
RM error notifier word is zero; otherwise refine to `NV_ERR_ECC_ERROR` when
ECC is enabled and the ECC notifier is set at the moment of inspection, and
`NV_ERR_RC_ERROR` otherwise. -/
def uvm_channel_get_status (ecc : GpuEccState) (channel : Channel) : NVStatus :=
  if channel.error_notifier_status = 0 then NVStatus.ok
  else if ecc.enabled && ecc.error_notifier then NVStatus.ecc_error
  else NVStatus.rc_error

/-- `uvm_channel_get_first_pending_entry` (uvm_channel.c:383): update
progress over the whole ring in `completed` mode; with no pending entries
return `none`, otherwise the entry at the (re-read) `gpu_get` when the ring
is non-empty. -/
def uvm_channel_get_first_pending_entry (channel : Channel) :
    Channel × Option GpfifoEntry :=
  let r := channel_update_progress_all channel UpdateMode.completed
  if r.2 = 0 then (r.1, none)
  else if r.1.gpu_get ≠ r.1.cpu_put then
    (r.1, some (r.1.gpfifo_entries.getD r.1.gpu_get default))
  else (r.1, none)

/-- What `uvm_channel_check_errors` produces: the returned status, the fatal
entry whose push-info it reports, whether `uvm_global_set_fatal_error` was
invoked, and the channel state after the contained progress update. -/
structure CheckErrorsResult where
  status : NVStatus
  fatal_entry : Option GpfifoEntry
  global_fatal_set : Bool
  channel : Channel
  deriving Repr, DecidableEq

/-- `uvm_channel_check_errors` (uvm_channel.c:428): return NV_OK immediately
when `uvm_channel_get_status` sees no error; otherwise report the first
pending GPFIFO entry (via `uvm_channel_get_fatal_entry`) and raise the
process-wide fatal flag with the detected status. -/
def uvm_channel_check_errors (ecc : GpuEccState) (channel : Channel) : CheckErrorsResult :=
  let status := uvm_channel_get_status ecc channel
  if status = NVStatus.ok then
    { status := NVStatus.ok, fatal_entry := none, global_fatal_set := false,
      channel := channel }
  else
    let r := uvm_channel_get_first_pending_entry channel
    { status := status, fatal_entry := r.2, global_fatal_set := true, channel := r.1 }

lemma pending_pos_get_ne_put (channel : Channel) (mode : UpdateMode)
    (h : 0 < (channel_update_progress_all channel mode).2) :
    (channel_update_progress_all channel mode).1.gpu_get ≠
      (channel_update_progress_all channel mode).1.cpu_put := by
  have hsnd : (channel_update_progress_all channel mode).2 =
      (if channel.cpu_put ≥ (updateProgressLoop (channelLoopCtx channel mode)
          channel.num_gpfifo_entries channel.gpu_get channel.available_push_infos).1
       then channel.cpu_put - (updateProgressLoop (channelLoopCtx channel mode)
          channel.num_gpfifo_entries channel.gpu_get channel.available_push_infos).1
       else channel.num_gpfifo_entries - (updateProgressLoop (channelLoopCtx channel mode)
          channel.num_gpfifo_entries channel.gpu_get channel.available_push_infos).1
          + channel.cpu_put) := rfl
  show (updateProgressLoop (channelLoopCtx channel mode) channel.num_gpfifo_entries
      channel.gpu_get channel.available_push_infos).1 ≠ channel.cpu_put
  intro heq
  rw [hsnd, heq] at h
  simp at h

/-- C6: `uvm_channel_get_status` returns success iff the error notifier word
is zero; a nonzero notifier yields the ECC error exactly when ECC is enabled
and the ECC notifier is set at the moment of inspection, and the RC error
otherwise; and on any detected error `uvm_channel_check_errors` raises the
process-wide fatal flag and reports the first pending GPFIFO slot (the entry
at `gpu_get` after the full progress update, whenever slots are pending) as
the fatal entry. -/
theorem uvm_channel_get_status_check_errors_spec (ecc : GpuEccState) (channel : Channel) :
    (uvm_channel_get_status ecc channel = NVStatus.ok ↔ channel.error_notifier_status = 0)
    ∧ (channel.error_notifier_status ≠ 0 →
        uvm_channel_get_status ecc channel =
          (if ecc.enabled = true ∧ ecc.error_notifier = true then NVStatus.ecc_error
           else NVStatus.rc_error))
    ∧ (channel.error_notifier_status ≠ 0 →
        (uvm_channel_check_errors ecc channel).status = uvm_channel_get_status ecc channel
        ∧ (uvm_channel_check_errors ecc channel).global_fatal_set = true
        ∧ (0 < (channel_update_progress_all channel UpdateMode.completed).2 →
            (uvm_channel_check_errors ecc channel).fatal_entry =
              some ((channel_update_progress_all channel
                  UpdateMode.completed).1.gpfifo_entries.getD
                (channel_update_progress_all channel UpdateMode.completed).1.gpu_get
                default))) := by
  have hstatus_ne : channel.error_notifier_status ≠ 0 →
      uvm_channel_get_status ecc channel ≠ NVStatus.ok := by
    intro hne
    unfold uvm_channel_get_status
    rw [if_neg hne]
    by_cases hecc : ecc.enabled && ecc.error_notifier
    · rw [if_pos hecc]; intro hcon; cases hcon
    · rw [if_neg hecc]; intro hcon; cases hcon
  refine ⟨?_, ?_, ?_⟩
  · constructor
    · intro h
      by_contra hne
      exact hstatus_ne hne h
    · intro h
      unfold uvm_channel_get_status
      rw [if_pos h]
  · intro hne
    unfold uvm_channel_get_status
    rw [if_neg hne]
    by_cases hecc : ecc.enabled && ecc.error_notifier
    · rw [if_pos hecc, if_pos (by simpa [Bool.and_eq_true] using hecc)]
    · rw [if_neg hecc, if_neg (by simpa [Bool.and_eq_true] using hecc)]
  · intro hne
    have hs := hstatus_ne hne
    unfold uvm_channel_check_errors
    rw [if_neg hs]
    refine ⟨rfl, rfl, ?_⟩
    intro hpend
    show (uvm_channel_get_first_pending_entry channel).2 = _
    unfold uvm_channel_get_first_pending_entry
    have hne2 := pending_pos_get_ne_put channel UpdateMode.completed hpend
    rw [if_neg (by omega), if_pos hne2]

/-- A 4-slot channel with one pending uncompleted entry and a nonzero RM
error notifier, for exercising the error paths. -/
def faultedChannel : Channel :=
  { freshChannel 4 with
      cpu_put := 1
      gpfifo_entries := [⟨1, 0, 0, 0⟩, ⟨0, 0, 0, 0⟩, ⟨0, 0, 0, 0⟩, ⟨0, 0, 0, 0⟩]
      error_notifier_status := 1 }

/-- Closed instance of `uvm_channel_get_status_check_errors_spec`: its
hypotheses discharged on a channel with a nonzero error notifier, a pending
uncompleted entry, ECC enabled and the ECC notifier set. -/
theorem uvm_channel_check_errors_witness :
    (uvm_channel_get_status ⟨true, true⟩ faultedChannel =
      (if (true = true ∧ true = true : Prop) then NVStatus.ecc_error else NVStatus.rc_error))
    ∧ (uvm_channel_check_errors ⟨true, true⟩ faultedChannel).global_fatal_set = true := by
  have h := uvm_channel_get_status_check_errors_spec ⟨true, true⟩ faultedChannel
  exact ⟨h.2.1 (by decide), (h.2.2 (by decide)).2.1⟩

/-! ### Location configuration -/

/-- `UVM_BUFFER_LOCATION`. -/
inductive UVM_BUFFER_LOCATION
  | sys
  | vid
  | default_location
  deriving Repr, DecidableEq

/-- `is_string_valid_location` (uvm_channel.c:940).  Faithful to the source:
the body compares the module parameter `uvm_channel_gpfifo_loc` (passed here
as the first argument) against the three valid strings and never reads its
`loc` parameter. -/
def is_string_valid_location (uvm_channel_gpfifo_loc : String) (loc : String) : Bool :=
  uvm_channel_gpfifo_loc == "sys" ||
    uvm_channel_gpfifo_loc == "vid" ||
    uvm_channel_gpfifo_loc == "auto"

/-- `string_to_buffer_location` (uvm_channel.c:947), past its assert: `"sys"`
and `"vid"` map to their locations, anything else to the default. -/
def string_to_buffer_location (loc : String) : UVM_BUFFER_LOCATION :=
  if loc == "sys" then UVM_BUFFER_LOCATION.sys
  else if loc == "vid" then UVM_BUFFER_LOCATION.vid
  else UVM_BUFFER_LOCATION.default_location

/-- The GPU attributes `init_channel_manager_conf` consults. -/
structure GpuConfAttrs where
  mem_info_size_zero : Bool
  gpfifo_in_vidmem_supported : Bool
  sysmem_link_ge_nvlink2 : Bool
  is_aarch64 : Bool
  deriving Repr, DecidableEq

/-- The location part of `uvm_channel_manager_t::conf`, plus one flag per
module parameter recording whether the invalid-value `pr_info` replacement
fired for it. -/
structure LocationConfResult where
  pushbuffer_loc : UVM_BUFFER_LOCATION
  gpfifo_loc : UVM_BUFFER_LOCATION
  gpput_loc : UVM_BUFFER_LOCATION
  pushbuffer_loc_replaced : Bool
  gpfifo_loc_replaced : Bool
  gpput_loc_replaced : Bool
  deriving Repr, DecidableEq

/-- The allocation-location logic of `init_channel_manager_conf`
(uvm_channel.c:997-1079), as a function of the three location module
parameters and the GPU attributes: the no-vidmem override, the pushbuffer
validation and AArch64 override, the pre-Volta early return, the GPFIFO and
GPPUT validation, the NVLINK2 default adjustment, and the user overrides.
Each validation calls `is_string_valid_location`, which (as in the source)
inspects the `uvm_channel_gpfifo_loc` module parameter rather than the
string under validation. -/
def init_channel_manager_conf_locations (gpu : GpuConfAttrs)
    (uvm_channel_gpfifo_loc uvm_channel_gpput_loc uvm_channel_pushbuffer_loc : String) :
    LocationConfResult :=
  if gpu.mem_info_size_zero then
    { pushbuffer_loc := UVM_BUFFER_LOCATION.sys
      gpfifo_loc := UVM_BUFFER_LOCATION.sys
      gpput_loc := UVM_BUFFER_LOCATION.sys
      pushbuffer_loc_replaced := false
      gpfifo_loc_replaced := false
      gpput_loc_replaced := false }
  else
    let pushbuffer_invalid :=
      !is_string_valid_location uvm_channel_gpfifo_loc uvm_channel_pushbuffer_loc
    let pushbuffer_loc_value :=
      if pushbuffer_invalid then "auto" else uvm_channel_pushbuffer_loc
    let pushbuffer_loc :=
      if pushbuffer_loc_value == "vid" then
        (if gpu.is_aarch64 then UVM_BUFFER_LOCATION.sys else UVM_BUFFER_LOCATION.vid)
      else UVM_BUFFER_LOCATION.sys
    if !gpu.gpfifo_in_vidmem_supported then
      { pushbuffer_loc := pushbuffer_loc
        gpfifo_loc := UVM_BUFFER_LOCATION.default_location
        gpput_loc := UVM_BUFFER_LOCATION.default_location
        pushbuffer_loc_replaced := pushbuffer_invalid
        gpfifo_loc_replaced := false
        gpput_loc_replaced := false }
    else
      let gpfifo_invalid :=
        !is_string_valid_location uvm_channel_gpfifo_loc uvm_channel_gpfifo_loc
      let gpfifo_loc_value := if gpfifo_invalid then "auto" else uvm_channel_gpfifo_loc
      let gpput_invalid :=
        !is_string_valid_location uvm_channel_gpfifo_loc uvm_channel_gpput_loc
      let gpput_loc_value := if gpput_invalid then "auto" else uvm_channel_gpput_loc
      let gpfifo_default :=
        if gpu.sysmem_link_ge_nvlink2 then UVM_BUFFER_LOCATION.sys
        else UVM_BUFFER_LOCATION.vid
      let gpfifo_loc :=
        if string_to_buffer_location gpfifo_loc_value ≠ UVM_BUFFER_LOCATION.default_location
        then string_to_buffer_location gpfifo_loc_value
        else gpfifo_default
      let gpput_loc :=
        if string_to_buffer_location gpput_loc_value ≠ UVM_BUFFER_LOCATION.default_location
        then string_to_buffer_location gpput_loc_value
        else UVM_BUFFER_LOCATION.vid
      { pushbuffer_loc := pushbuffer_loc
        gpfifo_loc := gpfifo_loc
        gpput_loc := gpput_loc
        pushbuffer_loc_replaced := pushbuffer_invalid
        gpfifo_loc_replaced := gpfifo_invalid
        gpput_loc_replaced := gpput_invalid }

/-- C8 (code bug): `is_string_valid_location` validates the
`uvm_channel_gpfifo_loc` module parameter instead of the string it is asked
about.  With `gpfifo_loc = "sys"`, the invalid `gpput_loc = "bogus"` is
accepted by the validation (no replacement, no log line) even though
`"bogus"` is outside `{"sys", "vid", "auto"}`; and conversely, with
`gpfifo_loc = "bogus"`, the valid `gpput_loc = "sys"` is replaced by
`"auto"`, so the effective GPPUT location is the `vid` default instead of
the requested `sys`. -/
theorem is_string_valid_location_ignores_argument :
    is_string_valid_location "sys" "bogus" = true
    ∧ ("bogus" ≠ "sys" ∧ "bogus" ≠ "vid" ∧ "bogus" ≠ "auto")
    ∧ (init_channel_manager_conf_locations ⟨false, true, false, false⟩
        "sys" "bogus" "auto").gpput_loc_replaced = false
    ∧ (init_channel_manager_conf_locations ⟨false, true, false, false⟩
        "bogus" "sys" "auto").gpput_loc_replaced = true
    ∧ (init_channel_manager_conf_locations ⟨false, true, false, false⟩
        "bogus" "sys" "auto").gpput_loc = UVM_BUFFER_LOCATION.vid
    ∧ (init_channel_manager_conf_locations ⟨false, true, false, false⟩
        "sys" "bogus" "auto").gpput_loc = UVM_BUFFER_LOCATION.vid := by
  refine ⟨rfl, ⟨?_, ?_, ?_⟩, rfl, rfl, rfl, rfl⟩ <;> decide

end UvmChannel
